import Mathlib

/-!
Shallow embedding of the FinAI client-side orchestration pipeline
(file ingestion, statement extraction, conversation session, speech
synthesis, application state controller, dashboard computations),
translated from the TypeScript source:

  - `types.ts` (data model)
  - `App.tsx` / `FileUpload.tsx` (src/unnamed/part_000): controller and ingestor
  - `ChatInterface.tsx` (src/unnamed/part_001): chat UI, speech handling
  - `services/gemini.ts` (src/unnamed/part_002): extraction, chat session, TTS
  - `components/Dashboard.tsx`: category aggregation and search filter

Monetary amounts (JS `number`) are modelled as exact rationals; machine
strings as Lean `String`; fallible calls as `Except`/`Option`; the external
AI service's responses appear as explicit outcome parameters.
-/

namespace FinAI

/-! ## Data model (`types.ts`) -/

/-- `Transaction.type` enum: `'INCOME' | 'EXPENSE'`. -/
inductive TxType where
  | INCOME
  | EXPENSE
deriving DecidableEq, Repr

/-- `interface Transaction` from `types.ts`. -/
structure Transaction where
  date : String
  description : String
  amount : Rat
  type : TxType
  category : String
deriving DecidableEq, Repr

/-- `interface AccountSummary` from `types.ts`. -/
structure AccountSummary where
  accountHolder : String
  accountNumber : String
  statementPeriod : String
  currency : String
  totalIncome : Rat
  totalExpenses : Rat
  openingBalance : Rat
  closingBalance : Rat
deriving DecidableEq, Repr

/-- `interface ParsedStatement` from `types.ts`. -/
structure ParsedStatement where
  summary : AccountSummary
  transactions : List Transaction
  insights : List String
deriving DecidableEq, Repr

/-- `ChatMessage.role` enum: `'user' | 'model'`. -/
inductive Role where
  | user
  | model
deriving DecidableEq, Repr

/-- `interface ChatMessage` from `types.ts`; `timestamp : Date` is modelled
as a natural-number clock value. -/
structure ChatMessage where
  id : String
  role : Role
  text : String
  timestamp : Nat
deriving DecidableEq, Repr

/-- `enum AppState` from `types.ts`. -/
inductive AppState where
  | IDLE
  | ANALYZING
  | DASHBOARD
  | ERROR
deriving DecidableEq, Repr

/-- `useState<'dashboard' | 'chat'>` active-tab value in `App.tsx`. -/
inductive Tab where
  | dashboard
  | chat
deriving DecidableEq, Repr

/-! ## JS string primitives used by the source

`String.prototype.includes` is substring containment; we model it on
character lists. -/

/-- Whether the first list is a prefix of the second (Boolean). -/
def listIsPrefixOf : List Char → List Char → Bool
  | [], _ => true
  | _ :: _, [] => false
  | a :: as, b :: bs => a = b && listIsPrefixOf as bs

/-- Whether `needle` occurs as a contiguous sublist of `hay`
(JS `hay.includes(needle)` on characters). -/
def listContainsSub (needle : List Char) : List Char → Bool
  | [] => needle.isEmpty
  | c :: rest => listIsPrefixOf needle (c :: rest) || listContainsSub needle rest

/-- JS `hay.includes(needle)` for strings. -/
def strIncludes (hay needle : String) : Bool :=
  listContainsSub needle.toList hay.toList

/-- JS `s.toLowerCase()` (simple per-character lowering). -/
def jsToLower (s : String) : String := String.mk (s.toList.map Char.toLower)

/-- JS `s.trim()`: strips leading and trailing whitespace. -/
def jsTrim (s : String) : String :=
  String.mk (((s.toList.dropWhile Char.isWhitespace).reverse.dropWhile
    Char.isWhitespace).reverse)

/-! ## Base64 (browser `FileReader.readAsDataURL` / `atob`)

Modelled from the spec: the browser's base64 data-URL encoding used by
`FileUpload.handleFileChange` is a platform API not present in the source;
it is embedded here as standard RFC 4648 base64 over byte values. -/

/-- The base64 alphabet, in index order. -/
def b64Alphabet : List Char :=
  "ABCDEFGHIJKLMNOPQRSTUVWXYZabcdefghijklmnopqrstuvwxyz0123456789+/".toList

/-- Character for a sextet value. -/
def b64Char (n : Nat) : Char := b64Alphabet.getD n 'A'

/-- Index of a character in a list, if present. -/
def indexOfChar (c : Char) : List Char → Option Nat
  | [] => none
  | x :: xs => if x = c then some 0 else (indexOfChar c xs).map (· + 1)

/-- Sextet value of a base64 character. -/
def b64DecChar (c : Char) : Option Nat := indexOfChar c b64Alphabet

/-- Standard base64 encoding of a byte list (values `< 256`), producing
character groups of four with `=` padding. -/
def b64EncodeBytes : List Nat → List Char
  | [] => []
  | [a] => [b64Char (a / 4), b64Char (a % 4 * 16), '=', '=']
  | [a, b] => [b64Char (a / 4), b64Char (a % 4 * 16 + b / 16), b64Char (b % 16 * 4), '=']
  | a :: b :: c :: rest =>
      b64Char (a / 4) :: b64Char (a % 4 * 16 + b / 16) ::
      b64Char (b % 16 * 4 + c / 64) :: b64Char (c % 64) :: b64EncodeBytes rest

/-- Standard base64 decoding back to bytes (JS `atob` composed with byte
extraction); `none` on ill-formed input. -/
def b64DecodeChars : List Char → Option (List Nat)
  | [] => some []
  | c1 :: c2 :: c3 :: c4 :: rest =>
    match b64DecChar c1, b64DecChar c2 with
    | some n1, some n2 =>
      if c3 = '=' then
        if c4 = '=' ∧ rest = [] then some [n1 * 4 + n2 / 16] else none
      else
        match b64DecChar c3 with
        | some n3 =>
          if c4 = '=' then
            if rest = [] then some [n1 * 4 + n2 / 16, n2 % 16 * 16 + n3 / 4] else none
          else
            match b64DecChar c4 with
            | some n4 =>
              (b64DecodeChars rest).map
                (fun l => (n1 * 4 + n2 / 16) :: (n2 % 16 * 16 + n3 / 4) :: (n3 % 4 * 64 + n4) :: l)
            | none => none
        | none => none
    | _, _ => none
  | _ => none

/-- Base64 encoding as a string. -/
def base64Encode (bytes : List Nat) : String := String.mk (b64EncodeBytes bytes)

/-- Base64 decoding of a string. -/
def base64Decode (s : String) : Option (List Nat) := b64DecodeChars s.toList

/-! ## File Ingestor (`FileUpload.tsx`, `handleFileChange`) -/

/-- A user-selected file: its MIME type (`file.type`) and raw bytes;
`file.size` is the byte count. -/
structure FileModel where
  type : String
  bytes : List Nat
deriving DecidableEq, Repr

/-- `file.size`. -/
def fileSize (f : FileModel) : Nat := f.bytes.length

/-- Outcome of `handleFileChange`: early return with no file, a validation
error shown via `setError`, or acceptance (the `onFileSelect(base64, mimeType)`
call that triggers extraction). -/
inductive IngestResult where
  | noFile
  | validationError (msg : String)
  | accepted (base64 : String) (mimeType : String)
deriving DecidableEq, Repr

/-- JS `s.split(',')` on character lists (accumulator holds the current
segment reversed). -/
def splitOnCommaAux (acc : List Char) : List Char → List (List Char)
  | [] => [acc.reverse]
  | c :: rest =>
      if c = ',' then acc.reverse :: splitOnCommaAux [] rest
      else splitOnCommaAux (c :: acc) rest

/-- JS `s.split(',')`. -/
def splitOnComma (l : List Char) : List (List Char) := splitOnCommaAux [] l

/-- The data URL produced by `FileReader.readAsDataURL`:
`"data:<mime>;base64,<payload>"`. -/
def fileDataURL (f : FileModel) : String :=
  "data:" ++ f.type ++ ";base64," ++ base64Encode f.bytes

/-- `result.split(',')[1]` from the `reader.onload` handler: the raw base64
payload with the data-URI prefix removed. -/
def dataURLPayload (s : String) : String :=
  String.mk ((splitOnComma s.toList).getD 1 [])

/-- The MIME-type validation from `handleFileChange`:
`file.type.includes('pdf') || file.type.includes('image')`. -/
def mimeTypeAllowed (ty : String) : Bool :=
  strIncludes ty "pdf" || strIncludes ty "image"

/-- The 10 MiB size ceiling: `10 * 1024 * 1024`. -/
def sizeLimit : Nat := 10 * 1024 * 1024

/-- `handleFileChange` from `FileUpload.tsx`: returns early when no file is
selected, rejects disallowed MIME types, then oversized files, and otherwise
reads the file as a data URL and passes `(base64, file.type)` on. -/
def handleFileChange (file : Option FileModel) : IngestResult :=
  match file with
  | none => .noFile
  | some f =>
    if ¬ (strIncludes f.type "pdf") ∧ ¬ (strIncludes f.type "image") then
      .validationError "Please upload a PDF or an Image file."
    else if fileSize f > 10 * 1024 * 1024 then
      .validationError "File size exceeds 10MB."
    else
      .accepted (dataURLPayload (fileDataURL f)) f.type

/-! ## Gemini service (`services/gemini.ts`) -/

/-- Errors raised by `extractFinancialData`. -/
inductive ExtractError where
  | noResponse
  | parseFailure
deriving DecidableEq, Repr

/-- `extractFinancialData`: given the service response body (`response.text`,
absent or a string) and the outcome of `JSON.parse` on it (a platform
function, passed as a parameter; `none` models a parse throw), either
returns the parsed statement or throws. The `catch` block logs and
rethrows, so every failure propagates to the caller. -/
def extractFinancialData (parse : String → Option ParsedStatement)
    (respText : Option String) : Except ExtractError ParsedStatement :=
  match respText with
  | none => .error .noResponse
  | some t =>
    if t.isEmpty then .error .noResponse
    else
      match parse t with
      | none => .error .parseFailure
      | some s => .ok s

/-- The module-level mutable state of `services/gemini.ts`:
`let chatSession: Chat | null = null`. The session handle is bound to the
dataset whose `JSON.stringify` is embedded in the system instruction. -/
structure GeminiState where
  chatSession : Option ParsedStatement
deriving DecidableEq, Repr

/-- `initializeChat(data)`: replaces the module-level session with a fresh
one bound to `data` (the source builds a system instruction embedding
`JSON.stringify(data)` plus a fixed persona directive). -/
def initializeChat (data : ParsedStatement) (_g : GeminiState) : GeminiState :=
  { chatSession := some data }

/-- Outcome of one `chatSession.sendMessage` call against the external
service: success (with `result.text`, possibly absent or empty) or a
transport/service failure. -/
inductive ServiceOutcome where
  | success (text : Option String)
  | failure (err : String)
deriving DecidableEq, Repr

/-- The fallback reply substituted when `result.text` is absent or empty. -/
def emptyReplyFallback : String := "I couldn't generate a response."

/-- The fixed user-safe fallback reply returned from the `catch` block. -/
def chatErrorFallback : String := "Sorry, I encountered an error analyzing that request."

/-- `sendMessageToAssistant(message)`: throws if the module-level session is
null; otherwise issues one request and returns `result.text || fallback`;
a transport/service failure is caught, logged (`console.error("Chat
error:", error)`) and replaced by a fixed fallback reply. The result pairs
the reply with the (unchanged) module state and the log entries. -/
def sendMessageToAssistant (g : GeminiState) (_message : String)
    (outcome : ServiceOutcome) : Except String (String × GeminiState × List String) :=
  match g.chatSession with
  | none => .error "Chat session not initialized"
  | some _ =>
    match outcome with
    | .success t =>
      match t with
      | some s => if s.isEmpty then .ok (emptyReplyFallback, g, []) else .ok (s, g, [])
      | none => .ok (emptyReplyFallback, g, [])
    | .failure e => .ok (chatErrorFallback, g, ["Chat error: " ++ e])

/-- The outbound TTS request built by `speakText`: model name, the text
part, and the prebuilt voice. -/
structure TTSRequest where
  model : String
  text : String
  voice : String
deriving DecidableEq, Repr

/-- `speakText(text)`: the request it issues to the audio-generation
endpoint (the text is transmitted verbatim). -/
def speakTextRequest (text : String) : TTSRequest :=
  { model := "gemini-2.5-flash-preview-tts", text := text, voice := "Kore" }

/-- `speakText`'s result handling: fails when no audio payload is present
in the response, otherwise returns the base64 audio data. -/
def speakTextResult (audioData : Option String) : Except String String :=
  match audioData with
  | none => .error "No audio data received from Gemini TTS"
  | some d => .ok d

/-! ## Application State Controller (`App.tsx`) -/

/-- The `App` component state (`appState`, `data`, `activeTab`) together
with the module-level Gemini service state it drives. -/
structure AppModel where
  appState : AppState
  data : Option ParsedStatement
  activeTab : Tab
  svc : GeminiState
deriving DecidableEq, Repr

/-- `handleFileProcess(base64, mimeType)`: sets `ANALYZING`, awaits
extraction; on success stores the dataset, initializes the chat session and
enters `DASHBOARD`; on any thrown error logs and enters `ERROR` (the
dataset setter is never reached). -/
def handleFileProcess (m : AppModel) (parse : String → Option ParsedStatement)
    (respText : Option String) : AppModel :=
  let m1 : AppModel := { m with appState := .ANALYZING }
  match extractFinancialData parse respText with
  | .ok result =>
      { m1 with data := some result, svc := initializeChat result m1.svc,
                appState := .DASHBOARD }
  | .error _ => { m1 with appState := .ERROR }

/-- `resetApp`: `setAppState(IDLE); setData(null); setActiveTab('dashboard')`.
It does not touch the module-level `chatSession` in `services/gemini.ts`. -/
def resetApp (m : AppModel) : AppModel :=
  { m with appState := .IDLE, data := none, activeTab := .dashboard }

/-! ## Chat interface (`ChatInterface.tsx`) -/

/-- The component state relevant to sending: the transcript, the input box
and the `isTyping` flag. -/
structure ChatUIState where
  messages : List ChatMessage
  input : String
  isTyping : Bool
deriving DecidableEq, Repr

/-- `const textToSend = textOverride || input;` — a missing or empty (falsy)
override falls back to the input box. -/
def resolveSendText (ui : ChatUIState) (textOverride : Option String) : String :=
  match textOverride with
  | some t => if t.isEmpty then ui.input else t
  | none => ui.input

/-- The user message appended by `handleSend` (`id: Date.now().toString()`). -/
def mkUserMsg (idNow : Nat) (text : String) : ChatMessage :=
  { id := toString idNow, role := .user, text := text, timestamp := idNow }

/-- The synchronous head of `handleSend`, up to the `await`: the guard
`if (!textToSend.trim() || isTyping) return;` yields `none` (no request
issued, no message appended, state untouched); otherwise the user turn is
appended, the input cleared and `isTyping` set, and the text to be sent to
the assistant is produced. -/
def handleSendStart (ui : ChatUIState) (textOverride : Option String)
    (idNow : Nat) : Option (ChatUIState × String) :=
  let textToSend := resolveSendText ui textOverride
  if (jsTrim textToSend).isEmpty || ui.isTyping then none
  else
    some ({ messages := ui.messages ++ [mkUserMsg idNow textToSend],
            input := "", isTyping := true }, textToSend)

/-- The error reply appended when `sendMessageToAssistant` throws. -/
def connectErrorReply : String := "I'm having trouble connecting right now. Please try again."

/-- The continuation of `handleSend` after the `await`: appends the
assistant reply (or, when the call threw, the fixed connection-error
message) and clears `isTyping` in the `finally` block. -/
def handleSendFinish (ui : ChatUIState) (reply : Except String String)
    (idNow : Nat) : ChatUIState :=
  match reply with
  | .ok text =>
      { ui with
        messages := ui.messages ++
          [{ id := toString (idNow + 1), role := .model, text := text, timestamp := idNow }],
        isTyping := false }
  | .error _ =>
      { ui with
        messages := ui.messages ++
          [{ id := toString (idNow + 1), role := .model, text := connectErrorReply,
             timestamp := idNow }],
        isTyping := false }

/-- `handleSpeak`'s text cleanup: `text.replace(/[*#_`]/g, '')` — removes
every `*`, `#`, `_` and backtick character. -/
def isMarkdownChar (c : Char) : Bool := "*#_`".toList.contains c

/-- The cleaned text (`cleanText`) passed to `speakText`. -/
def stripMarkdown (s : String) : String :=
  String.mk (s.toList.filter (fun c => ! isMarkdownChar c))

/-- The TTS request `handleSpeak` causes for a message text: `speakText`
applied to the stripped text. -/
def handleSpeakRequest (text : String) : TTSRequest :=
  speakTextRequest (stripMarkdown text)

/-! ## Dashboard computations (`components/Dashboard.tsx`) -/

/-- One step of the `expenses.forEach` accumulation:
`categories[t.category] = (categories[t.category] || 0) + t.amount`, on an
insertion-ordered association list (JS object with string keys). -/
def addToCategory (acc : List (String × Rat)) (cat : String) (amt : Rat) :
    List (String × Rat) :=
  match acc with
  | [] => [(cat, amt)]
  | (c, v) :: rest =>
      if c = cat then (c, v + amt) :: rest
      else (c, v) :: addToCategory rest cat amt

/-- First-match association lookup (`categories[c] || 0`). -/
def lookupVal : List (String × Rat) → String → Rat
  | [], _ => 0
  | (c, v) :: rest, c' => if c' = c then v else lookupVal rest c'

/-- Stable insertion for a descending-by-value sort (the JS
`sort((a, b) => b.value - a.value)`: ties keep insertion order). -/
def insertDesc (x : String × Rat) : List (String × Rat) → List (String × Rat)
  | [] => [x]
  | y :: ys => if y.2 ≤ x.2 then x :: y :: ys else y :: insertDesc x ys

/-- Stable sort, descending by value. -/
def sortDesc : List (String × Rat) → List (String × Rat)
  | [] => []
  | x :: xs => insertDesc x (sortDesc xs)

/-- `categoryData`: filter `EXPENSE` transactions, accumulate amounts per
category, sort descending by value and keep the top 6. -/
def categoryData (ts : List Transaction) : List (String × Rat) :=
  let expenses := ts.filter (fun t => t.type = TxType.EXPENSE)
  let categories := expenses.foldl (fun acc t => addToCategory acc t.category t.amount) []
  (sortDesc categories).take 6

/-- The total amount of `EXPENSE` transactions of a given category. -/
def expenseSum (ts : List Transaction) (cat : String) : Rat :=
  match ts with
  | [] => 0
  | t :: rest =>
      (if t.type = TxType.EXPENSE ∧ t.category = cat then t.amount else 0) + expenseSum rest cat

/-- The amount accumulated for category `c` over a transaction list,
ignoring type. -/
def catSum (ts : List Transaction) (c : String) : Rat :=
  match ts with
  | [] => 0
  | t :: rest => (if t.category = c then t.amount else 0) + catSum rest c

/-- The per-transaction search predicate of `filteredTransactions`:
case-insensitive substring match on description or category. -/
def matchesSearch (term : String) (t : Transaction) : Bool :=
  strIncludes (jsToLower t.description) (jsToLower term) ||
  strIncludes (jsToLower t.category) (jsToLower term)

/-- `filteredTransactions` from `Dashboard.tsx`. -/
def filteredTransactions (ts : List Transaction) (searchTerm : String) : List Transaction :=
  ts.filter (fun t => matchesSearch searchTerm t)

/-- `Except` success test (JS: the call did not throw). -/
def exceptIsOk {ε α : Type} : Except ε α → Bool
  | .ok _ => true
  | .error _ => false

/-! ## Concrete fixtures used by the claim instances -/

/-- A small extracted statement used as a concrete dataset. -/
def sampleStatement : ParsedStatement :=
  { summary :=
      { accountHolder := "A. User", accountNumber := "XX1234",
        statementPeriod := "Jan 2024", currency := "USD",
        totalIncome := 500, totalExpenses := 180,
        openingBalance := 100, closingBalance := 420 },
    transactions :=
      [{ date := "2024-01-02", description := "Salary", amount := 500,
         type := .INCOME, category := "Salary" }],
    insights := ["Income exceeded expenses."] }

/-- The controller state on the dashboard after a successful upload: the
dataset is stored and the module-level chat session was initialized. -/
def dashboardModel : AppModel :=
  { appState := .DASHBOARD, data := some sampleStatement, activeTab := .dashboard,
    svc := { chatSession := some sampleStatement } }

/-- A controller state in which no chat session was ever initialized. -/
def freshModel : AppModel :=
  { appState := .DASHBOARD, data := some sampleStatement, activeTab := .dashboard,
    svc := { chatSession := none } }

/-- The initial controller state. -/
def idleModel : AppModel :=
  { appState := .IDLE, data := none, activeTab := .dashboard,
    svc := { chatSession := none } }

/-- A file of disallowed MIME type. -/
def badTypeFile : FileModel := { type := "text/plain", bytes := [0] }

/-- An allowed-type file one byte over the 10 MiB ceiling. -/
def oversizedFile : FileModel :=
  { type := "application/pdf", bytes := List.replicate (10 * 1024 * 1024 + 1) 0 }

/-- A small allowed-type file (PNG magic bytes). -/
def pngFile : FileModel := { type := "image/png", bytes := [137, 80, 78, 71] }

/-- The category-aggregation fixture from the spec:
`[{EXPENSE, 100, "Food"}, {EXPENSE, 50, "Food"}, {EXPENSE, 30, "Transport"}]`. -/
def sampleExpenses : List Transaction :=
  [{ date := "2024-01-01", description := "groceries", amount := 100,
     type := .EXPENSE, category := "Food" },
   { date := "2024-01-02", description := "restaurant", amount := 50,
     type := .EXPENSE, category := "Food" },
   { date := "2024-01-03", description := "bus", amount := 30,
     type := .EXPENSE, category := "Transport" }]

/-- The search-filter fixture: descriptions
`["Starbucks Coffee", "Amazon Purchase"]`. -/
def starbucksTx : Transaction :=
  { date := "2024-01-04", description := "Starbucks Coffee", amount := 5,
    type := .EXPENSE, category := "Dining" }

def amazonTx : Transaction :=
  { date := "2024-01-05", description := "Amazon Purchase", amount := 20,
    type := .EXPENSE, category := "Shopping" }

def sampleSearchTxs : List Transaction := [starbucksTx, amazonTx]

/-- A chat UI state with a send already in flight. -/
def busyChatUI : ChatUIState :=
  { messages := [], input := "what about rent?", isTyping := true }

/-- A chat UI state ready to send. -/
def readyChatUI : ChatUIState :=
  { messages := [], input := "hi", isTyping := false }

/-- The state `handleSendStart` produces from `readyChatUI` at clock 7. -/
def startedChatUI : ChatUIState :=
  { messages := [mkUserMsg 7 "hi"], input := "", isTyping := true }


/-! ## Supporting lemmas: base64 and data-URL framing -/

theorem b64DecChar_b64Char : ∀ n < 64, b64DecChar (b64Char n) = some n := by decide

theorem b64Alphabet_ne_eq : ∀ c ∈ b64Alphabet, c ≠ '=' := by decide

theorem b64Alphabet_ne_comma : ∀ c ∈ b64Alphabet, c ≠ ',' := by decide

theorem b64Char_ne_eq (n : Nat) : b64Char n ≠ '=' := by
  unfold b64Char
  rcases Nat.lt_or_ge n b64Alphabet.length with h | h
  · rw [List.getD_eq_getElem _ _ h]
    exact b64Alphabet_ne_eq _ (List.getElem_mem h)
  · rw [List.getD_eq_default _ _ h]; decide

theorem b64Char_ne_comma (n : Nat) : b64Char n ≠ ',' := by
  unfold b64Char
  rcases Nat.lt_or_ge n b64Alphabet.length with h | h
  · rw [List.getD_eq_getElem _ _ h]
    exact b64Alphabet_ne_comma _ (List.getElem_mem h)
  · rw [List.getD_eq_default _ _ h]; decide

theorem b64DecodeChars_encode : ∀ l : List Nat, (∀ b ∈ l, b < 256) →
    b64DecodeChars (b64EncodeBytes l) = some l := by
  intro l
  induction l using b64EncodeBytes.induct with
  | case1 => intro _; rfl
  | case2 a =>
    intro h
    have ha : a < 256 := h a (by simp)
    have h1 := b64DecChar_b64Char (a / 4) (by omega)
    have h2 := b64DecChar_b64Char (a % 4 * 16) (by omega)
    simp only [b64EncodeBytes, b64DecodeChars, h1, h2]
    simp only [Option.some.injEq, List.cons.injEq, and_true, if_pos]
    simp
    omega
  | case3 a b =>
    intro h
    have ha : a < 256 := h a (by simp)
    have hb : b < 256 := h b (by simp)
    have h1 := b64DecChar_b64Char (a / 4) (by omega)
    have h2 := b64DecChar_b64Char (a % 4 * 16 + b / 16) (by omega)
    have h3 := b64DecChar_b64Char (b % 16 * 4) (by omega)
    simp only [b64EncodeBytes, b64DecodeChars, h1, h2, h3, b64Char_ne_eq]
    simp [b64Char_ne_eq]
    omega
  | case4 a b c rest ih =>
    intro h
    have ha : a < 256 := h a (by simp)
    have hb : b < 256 := h b (by simp)
    have hc : c < 256 := h c (by simp)
    have hrest : ∀ x ∈ rest, x < 256 := fun x hx => h x (by simp [hx])
    have h1 := b64DecChar_b64Char (a / 4) (by omega)
    have h2 := b64DecChar_b64Char (a % 4 * 16 + b / 16) (by omega)
    have h3 := b64DecChar_b64Char (b % 16 * 4 + c / 64) (by omega)
    have h4 := b64DecChar_b64Char (c % 64) (by omega)
    simp only [b64EncodeBytes, b64DecodeChars, h1, h2, h3, h4, ih hrest]
    simp [b64Char_ne_eq]
    omega

theorem splitOnCommaAux_no_comma (l : List Char) (acc : List Char) (h : ',' ∉ l) :
    splitOnCommaAux acc l = [acc.reverse ++ l] := by
  induction l generalizing acc with
  | nil => simp [splitOnCommaAux]
  | cons c rest ih =>
    have hc : ¬ (c = ',') := fun e => h (by simp [e])
    have hr : ',' ∉ rest := fun e => h (by simp [e])
    simp [splitOnCommaAux, hc, ih _ hr]

theorem splitOnComma_two (l1 l2 : List Char) (h1 : ',' ∉ l1) (h2 : ',' ∉ l2) :
    splitOnComma (l1 ++ ',' :: l2) = [l1, l2] := by
  have aux : ∀ (l : List Char) (acc : List Char), ',' ∉ l →
      splitOnCommaAux acc (l ++ ',' :: l2) = (acc.reverse ++ l) :: [l2] := by
    intro l
    induction l with
    | nil =>
      intro acc _
      simp [splitOnCommaAux, splitOnCommaAux_no_comma l2 [] h2]
    | cons c rest ih =>
      intro acc hl
      have hc : ¬ (c = ',') := fun e => hl (by simp [e])
      have hr : ',' ∉ rest := fun e => hl (by simp [e])
      simp [splitOnCommaAux, hc, ih _ hr]
  have := aux l1 [] h1
  simpa [splitOnComma] using this

theorem b64EncodeBytes_no_comma (l : List Nat) : ∀ ch ∈ b64EncodeBytes l, ch ≠ ',' := by
  induction l using b64EncodeBytes.induct with
  | case1 => intro ch hch; simp [b64EncodeBytes] at hch
  | case2 a =>
    intro ch hch
    simp [b64EncodeBytes] at hch
    rcases hch with rfl | rfl | rfl
    · exact b64Char_ne_comma _
    · exact b64Char_ne_comma _
    · decide
  | case3 a b =>
    intro ch hch
    simp [b64EncodeBytes] at hch
    rcases hch with rfl | rfl | rfl | rfl
    · exact b64Char_ne_comma _
    · exact b64Char_ne_comma _
    · exact b64Char_ne_comma _
    · decide
  | case4 a b c rest ih =>
    intro ch hch
    simp [b64EncodeBytes] at hch
    rcases hch with rfl | rfl | rfl | rfl | hch
    · exact b64Char_ne_comma _
    · exact b64Char_ne_comma _
    · exact b64Char_ne_comma _
    · exact b64Char_ne_comma _
    · exact ih ch hch

theorem dataURLPayload_fileDataURL (f : FileModel) (h : ',' ∉ f.type.toList) :
    dataURLPayload (fileDataURL f) = base64Encode f.bytes := by
  have henc : ',' ∉ (base64Encode f.bytes).toList := by
    intro hm
    exact b64EncodeBytes_no_comma f.bytes ',' hm rfl
  have hpre : ',' ∉ ("data:".toList ++ f.type.toList ++ ";base64".toList) := by
    intro hm
    rcases List.mem_append.mp hm with hm | hm
    · rcases List.mem_append.mp hm with hm | hm
      · exact absurd hm (by decide)
      · exact h hm
    · exact absurd hm (by decide)
  have hsplit := splitOnComma_two
      ("data:".toList ++ f.type.toList ++ ";base64".toList)
      (base64Encode f.bytes).toList hpre henc
  have hshape : (fileDataURL f).toList =
      ("data:".toList ++ f.type.toList ++ ";base64".toList) ++
        ',' :: (base64Encode f.bytes).toList := by
    show (fileDataURL f).data = _
    simp [fileDataURL]
  show String.mk ((splitOnComma (fileDataURL f).toList).getD 1 []) = base64Encode f.bytes
  rw [hshape, hsplit]
  rfl


/-! ## Supporting lemmas: category aggregation and sorting -/

theorem lookupVal_addToCategory (acc : List (String × Rat)) (cat : String) (amt : Rat)
    (c' : String) :
    lookupVal (addToCategory acc cat amt) c' =
      if c' = cat then lookupVal acc c' + amt else lookupVal acc c' := by
  induction acc with
  | nil =>
    by_cases h : c' = cat <;> simp [addToCategory, lookupVal, h]
  | cons p rest ih =>
    obtain ⟨c, v⟩ := p
    by_cases hc : c = cat
    · subst hc
      by_cases h : c' = c <;> simp [addToCategory, lookupVal, h]
    · by_cases h : c' = c
      · subst h
        simp [addToCategory, lookupVal, hc]
      · simp [addToCategory, lookupVal, hc, h, ih]

theorem addToCategory_keys (acc : List (String × Rat)) (cat : String) (amt : Rat) :
    (addToCategory acc cat amt).map Prod.fst =
      if cat ∈ acc.map Prod.fst then acc.map Prod.fst else acc.map Prod.fst ++ [cat] := by
  induction acc with
  | nil => simp [addToCategory]
  | cons p rest ih =>
    obtain ⟨c, v⟩ := p
    by_cases hc : c = cat
    · subst hc; simp [addToCategory]
    · by_cases hm : cat ∈ rest.map Prod.fst
      · simp [addToCategory, hc, hm, ih, Ne.symm hc]
      · simp [addToCategory, hc, hm, ih, Ne.symm hc]

theorem addToCategory_keysNodup (acc : List (String × Rat)) (cat : String) (amt : Rat)
    (h : (acc.map Prod.fst).Nodup) : ((addToCategory acc cat amt).map Prod.fst).Nodup := by
  rw [addToCategory_keys]
  by_cases hm : cat ∈ acc.map Prod.fst
  · simpa [hm]
  · simp [hm]
    exact List.Nodup.append h (List.nodup_singleton cat) (by simpa using hm)

theorem foldl_keysNodup (ts : List Transaction) (acc : List (String × Rat))
    (h : (acc.map Prod.fst).Nodup) :
    ((ts.foldl (fun acc t => addToCategory acc t.category t.amount) acc).map Prod.fst).Nodup := by
  induction ts generalizing acc with
  | nil => simpa using h
  | cons t rest ih =>
    simp only [List.foldl_cons]
    exact ih _ (addToCategory_keysNodup _ _ _ h)

theorem foldl_lookupVal (ts : List Transaction) (acc : List (String × Rat)) (c : String) :
    lookupVal (ts.foldl (fun acc t => addToCategory acc t.category t.amount) acc) c =
      lookupVal acc c + catSum ts c := by
  induction ts generalizing acc with
  | nil => simp [catSum]
  | cons t rest ih =>
    simp only [List.foldl_cons, ih, lookupVal_addToCategory, catSum]
    by_cases h : c = t.category
    · simp [h, add_assoc]
    · have h' : ¬ (t.category = c) := fun e => h e.symm
      simp [h, h']

theorem mem_lookupVal (l : List (String × Rat)) (c : String) (v : Rat)
    (hnd : (l.map Prod.fst).Nodup) (hm : (c, v) ∈ l) : lookupVal l c = v := by
  induction l with
  | nil => simp at hm
  | cons p rest ih =>
    obtain ⟨c0, v0⟩ := p
    rw [List.map_cons, List.nodup_cons] at hnd
    rcases List.mem_cons.mp hm with he | hm'
    · rw [Prod.mk.injEq] at he
      obtain ⟨rfl, rfl⟩ := he
      simp [lookupVal]
    · have hc : c ≠ c0 := by
        rintro rfl
        exact hnd.1 (List.mem_map.mpr ⟨(c, v), hm', rfl⟩)
      simp only [lookupVal, if_neg hc]
      exact ih hnd.2 hm'

theorem catSum_filter_expense (ts : List Transaction) (c : String) :
    catSum (ts.filter (fun t => t.type = TxType.EXPENSE)) c = expenseSum ts c := by
  induction ts with
  | nil => simp [catSum, expenseSum]
  | cons t rest ih =>
    by_cases he : t.type = TxType.EXPENSE
    · by_cases hc : t.category = c
      · simp [List.filter_cons, he, hc, catSum, expenseSum, ih]
      · simp [List.filter_cons, he, hc, catSum, expenseSum, ih]
    · by_cases hc : t.category = c
      · simp [List.filter_cons, he, hc, catSum, expenseSum, ih]
      · simp [List.filter_cons, he, hc, catSum, expenseSum, ih]

theorem mem_insertDesc (x y : String × Rat) (l : List (String × Rat)) :
    y ∈ insertDesc x l ↔ y = x ∨ y ∈ l := by
  induction l with
  | nil => simp [insertDesc]
  | cons z zs ih =>
    by_cases h : z.2 ≤ x.2
    · simp [insertDesc, h]
    · simp [insertDesc, h, ih]
      tauto

theorem mem_sortDesc (y : String × Rat) (l : List (String × Rat)) :
    y ∈ sortDesc l ↔ y ∈ l := by
  induction l with
  | nil => simp [sortDesc]
  | cons z zs ih => simp [sortDesc, mem_insertDesc, ih]

theorem sorted_insertDesc (x : String × Rat) (l : List (String × Rat))
    (h : l.Pairwise (fun a b => b.2 ≤ a.2)) :
    (insertDesc x l).Pairwise (fun a b => b.2 ≤ a.2) := by
  induction l with
  | nil => simp [insertDesc]
  | cons z zs ih =>
    rcases List.pairwise_cons.mp h with ⟨hz, hzs⟩
    by_cases hle : z.2 ≤ x.2
    · simp only [insertDesc, hle, if_pos]
      refine List.pairwise_cons.mpr ⟨?_, h⟩
      intro b hb
      rcases List.mem_cons.mp hb with rfl | hb'
      · exact hle
      · exact le_trans (hz b hb') hle
    · simp only [insertDesc, hle, if_neg, ite_false]
      refine List.pairwise_cons.mpr ⟨?_, ih hzs⟩
      intro b hb
      rcases (mem_insertDesc x b zs).mp hb with rfl | hb'
      · exact le_of_not_le hle
      · exact hz b hb'

theorem sorted_sortDesc (l : List (String × Rat)) :
    (sortDesc l).Pairwise (fun a b => b.2 ≤ a.2) := by
  induction l with
  | nil => simp [sortDesc]
  | cons z zs ih => exact sorted_insertDesc z (sortDesc zs) ih

/-! ## Claims C1 and C2 -/

/-- C1 (counterexample): after a reset from the Dashboard state with a
loaded dataset, the module-level chat session is still alive, so a
subsequent `send` without re-initialization silently answers instead of
failing with the session-not-initialized contract violation. -/
theorem send_after_reset_still_answers :
    (resetApp dashboardModel).appState = AppState.IDLE ∧
    (resetApp dashboardModel).data = none ∧
    sendMessageToAssistant (resetApp dashboardModel).svc "How much did I spend?"
        (.success (some "A lot.")) =
      .ok ("A lot.", (resetApp dashboardModel).svc, []) := by
  refine ⟨rfl, rfl, ?_⟩
  rfl

/-- C1 (amended): a reset returns the application to `Idle` with the
dataset cleared and the dashboard tab restored, but leaves the
module-level chat session untouched; `send` fails with the
session-not-initialized contract violation only when no session is
present. -/
theorem reset_clears_state_but_keeps_session (m : AppModel) (message : String)
    (outcome : ServiceOutcome) :
    (resetApp m).appState = AppState.IDLE ∧
    (resetApp m).data = none ∧
    (resetApp m).activeTab = Tab.dashboard ∧
    (resetApp m).svc = m.svc ∧
    ((resetApp m).svc.chatSession = none →
      sendMessageToAssistant (resetApp m).svc message outcome =
        .error "Chat session not initialized") := by
  refine ⟨rfl, rfl, rfl, rfl, ?_⟩
  intro h
  simp [sendMessageToAssistant, h]

/-- Witness for the amended C1 at a concrete never-initialized model. -/
theorem reset_clears_state_but_keeps_session_witness :
    (resetApp freshModel).appState = AppState.IDLE ∧
    sendMessageToAssistant (resetApp freshModel).svc "hi" (.success (some "x")) =
      .error "Chat session not initialized" :=
  ⟨(reset_clears_state_but_keeps_session freshModel "hi" (.success (some "x"))).1,
   (reset_clears_state_but_keeps_session freshModel "hi" (.success (some "x"))).2.2.2.2 rfl⟩

/-- C2: when the extraction response body is absent, empty, or fails to
parse, `extractFinancialData` returns an error (never a defaulted
statement), and `handleFileProcess` ends in the `ERROR` state with the
stored dataset and chat session unchanged (so a dataset that was null
stays null). -/
theorem extraction_failure_propagates (m : AppModel)
    (parse : String → Option ParsedStatement) (respText : Option String)
    (h : respText = none ∨ respText = some "" ∨
         ∃ t, respText = some t ∧ parse t = none) :
    (∃ e, extractFinancialData parse respText = .error e) ∧
    (handleFileProcess m parse respText).appState = AppState.ERROR ∧
    (handleFileProcess m parse respText).data = m.data ∧
    (handleFileProcess m parse respText).svc = m.svc := by
  have herr : ∃ e, extractFinancialData parse respText = .error e := by
    rcases h with rfl | rfl | ⟨t, rfl, hp⟩
    · exact ⟨.noResponse, rfl⟩
    · exact ⟨.noResponse, rfl⟩
    · by_cases he : t.isEmpty
      · exact ⟨.noResponse, by simp [extractFinancialData, he]⟩
      · exact ⟨.parseFailure, by simp [extractFinancialData, he, hp]⟩
  obtain ⟨e, he⟩ := herr
  refine ⟨⟨e, he⟩, ?_, ?_, ?_⟩ <;> simp [handleFileProcess, he]

/-- Witness for C2 at a concrete malformed body. -/
theorem extraction_failure_propagates_witness :
    (∃ e, extractFinancialData (fun _ => none) (some "not json") = .error e) ∧
    (handleFileProcess idleModel (fun _ => none) (some "not json")).appState
      = AppState.ERROR ∧
    (handleFileProcess idleModel (fun _ => none) (some "not json")).data
      = idleModel.data ∧
    (handleFileProcess idleModel (fun _ => none) (some "not json")).svc
      = idleModel.svc :=
  extraction_failure_propagates idleModel (fun _ => none) (some "not json")
    (Or.inr (Or.inr ⟨"not json", rfl, rfl⟩))

/-! ## Claims C3 and C4 -/

/-- C3: ingestion validates before anything else — a file whose MIME type
contains neither `pdf` nor `image` fails with the type ValidationError; an
allowed-type file over 10 MiB (10*1024*1024 bytes) fails with the size
ValidationError; and under either violation the result is a
ValidationError (regardless of MIME type) and never an acceptance, so no
extraction or network call is triggered. -/
theorem ingest_validates_type_and_size (f : FileModel) :
    (mimeTypeAllowed f.type = false →
      handleFileChange (some f) = .validationError "Please upload a PDF or an Image file.") ∧
    (mimeTypeAllowed f.type = true → sizeLimit < fileSize f →
      handleFileChange (some f) = .validationError "File size exceeds 10MB.") ∧
    ((mimeTypeAllowed f.type = false ∨ sizeLimit < fileSize f) →
      (∃ msg, handleFileChange (some f) = .validationError msg) ∧
      ∀ b mt, handleFileChange (some f) ≠ .accepted b mt) := by
  have htype : ∀ h : mimeTypeAllowed f.type = false,
      handleFileChange (some f) = .validationError "Please upload a PDF or an Image file." := by
    intro h
    rw [mimeTypeAllowed, Bool.or_eq_false_iff] at h
    simp [handleFileChange, h.1, h.2]
  have hsize : ∀ (h : mimeTypeAllowed f.type = true) (hs : sizeLimit < fileSize f),
      handleFileChange (some f) = .validationError "File size exceeds 10MB." := by
    intro h hs
    rw [sizeLimit] at hs
    rw [mimeTypeAllowed, Bool.or_eq_true] at h
    rcases h with h | h
    · simp [handleFileChange, h, hs]
    · simp [handleFileChange, h, hs]
  refine ⟨htype, hsize, ?_⟩
  intro h
  have hval : ∃ msg, handleFileChange (some f) = .validationError msg := by
    rcases h with h | h
    · exact ⟨_, htype h⟩
    · cases hty : mimeTypeAllowed f.type
      · exact ⟨_, htype hty⟩
      · exact ⟨_, hsize hty h⟩
  refine ⟨hval, ?_⟩
  obtain ⟨msg, hmsg⟩ := hval
  intro b mt hacc
  rw [hmsg] at hacc
  exact IngestResult.noConfusion hacc

/-- Witness for C3: a disallowed-type file and an oversized PDF both fail
with the specific ValidationError. -/
theorem ingest_validates_type_and_size_witness :
    handleFileChange (some badTypeFile) =
      .validationError "Please upload a PDF or an Image file." ∧
    handleFileChange (some oversizedFile) =
      .validationError "File size exceeds 10MB." :=
  ⟨(ingest_validates_type_and_size badTypeFile).1 (by decide),
   (ingest_validates_type_and_size oversizedFile).2.1 (by decide)
     (by
       unfold sizeLimit fileSize oversizedFile
       rw [List.length_replicate]
       omega)⟩

/-- C4: every allowed-type file within the 10 MiB ceiling is accepted, the
forwarded payload is the base64 encoding of its bytes paired with its
original MIME type, and decoding that payload returns the original bytes
exactly (round-trip law). -/
theorem ingest_roundtrip (f : FileModel)
    (hty : mimeTypeAllowed f.type = true)
    (hsz : fileSize f ≤ sizeLimit)
    (hbytes : ∀ b ∈ f.bytes, b < 256)
    (hmime : ',' ∉ f.type.toList) :
    handleFileChange (some f) = .accepted (base64Encode f.bytes) f.type ∧
    base64Decode (base64Encode f.bytes) = some f.bytes := by
  constructor
  · have hsz' : ¬ (10 * 1024 * 1024 < fileSize f) := by
      rw [sizeLimit] at hsz
      omega
    rw [mimeTypeAllowed, Bool.or_eq_true] at hty
    have hpay := dataURLPayload_fileDataURL f hmime
    rcases hty with h | h
    · simp [handleFileChange, h, hsz', hpay]
    · simp [handleFileChange, h, hsz', hpay]
  · show b64DecodeChars (base64Encode f.bytes).toList = some f.bytes
    exact b64DecodeChars_encode f.bytes hbytes

/-- Witness for C4 at a concrete small PNG file. -/
theorem ingest_roundtrip_witness :
    handleFileChange (some pngFile) = .accepted (base64Encode pngFile.bytes) pngFile.type ∧
    base64Decode (base64Encode pngFile.bytes) = some pngFile.bytes :=
  ingest_roundtrip pngFile (by decide) (by decide) (by decide) (by decide)

/-! ## Claims C5 through C10 -/

/-- C5: `handleSpeak` transmits to the audio-generation endpoint exactly
the input text with every `*`, `#`, `_` and backtick removed; in
particular the literal input `"**Hello** `world`"` is transmitted as
`"Hello world"`. -/
theorem speak_strips_markdown (text : String) :
    (handleSpeakRequest text).text = stripMarkdown text ∧
    ((stripMarkdown text).toList.all (fun c => ! isMarkdownChar c)) = true ∧
    (handleSpeakRequest "**Hello** `world`").text = "Hello world" := by
  refine ⟨rfl, ?_, by decide⟩
  rw [List.all_eq_true]
  intro c hc
  have : c ∈ (stripMarkdown text).toList := hc
  rw [stripMarkdown] at this
  exact (List.mem_filter.mp this).2

/-- C6: with an initialized session, a transport/service failure during a
turn is not rethrown: `sendMessageToAssistant` returns the fixed fallback
reply, logs the cause, leaves the module state unchanged, and the session
stays usable — every subsequent send on that state also returns (never
throws). -/
theorem chat_failure_returns_fallback (g : GeminiState) (message e : String)
    (h : g.chatSession.isSome = true) :
    sendMessageToAssistant g message (.failure e) =
      .ok (chatErrorFallback, g, ["Chat error: " ++ e]) ∧
    ∀ (message2 : String) (outcome : ServiceOutcome),
      exceptIsOk (sendMessageToAssistant g message2 outcome) = true := by
  obtain ⟨d, hd⟩ := Option.isSome_iff_exists.mp h
  constructor
  · simp [sendMessageToAssistant, hd]
  · intro m2 oc
    cases oc with
    | success t =>
      cases t with
      | none => simp [sendMessageToAssistant, hd, exceptIsOk]
      | some s =>
        by_cases hs : s.isEmpty <;>
          simp [sendMessageToAssistant, hd, hs, exceptIsOk]
    | failure e2 => simp [sendMessageToAssistant, hd, exceptIsOk]

/-- Witness for C6 at a concrete initialized session and failure. -/
theorem chat_failure_returns_fallback_witness :
    sendMessageToAssistant { chatSession := some sampleStatement } "q" (.failure "boom") =
      .ok (chatErrorFallback, { chatSession := some sampleStatement }, ["Chat error: " ++ "boom"]) ∧
    exceptIsOk (sendMessageToAssistant { chatSession := some sampleStatement } "next"
      (.success (some "fine"))) = true :=
  ⟨(chat_failure_returns_fallback { chatSession := some sampleStatement } "q" "boom" rfl).1,
   (chat_failure_returns_fallback { chatSession := some sampleStatement } "q" "boom" rfl).2
     "next" (.success (some "fine"))⟩

/-- C9: with an initialized session, a successful service call whose reply
text is absent or empty yields the fixed string
"I couldn't generate a response.", not the empty string and not an
error. -/
theorem empty_reply_gets_fallback (g : GeminiState) (message : String)
    (h : g.chatSession.isSome = true) :
    sendMessageToAssistant g message (.success none) = .ok (emptyReplyFallback, g, []) ∧
    sendMessageToAssistant g message (.success (some "")) =
      .ok (emptyReplyFallback, g, []) := by
  obtain ⟨d, hd⟩ := Option.isSome_iff_exists.mp h
  constructor
  · simp [sendMessageToAssistant, hd]
  · simp [sendMessageToAssistant, hd, show ("".isEmpty = true) from rfl]

/-- Witness for C9 at a concrete initialized session. -/
theorem empty_reply_gets_fallback_witness :
    sendMessageToAssistant { chatSession := some sampleStatement } "hi" (.success none) =
      .ok (emptyReplyFallback, { chatSession := some sampleStatement }, []) ∧
    sendMessageToAssistant { chatSession := some sampleStatement } "hi" (.success (some "")) =
      .ok (emptyReplyFallback, { chatSession := some sampleStatement }, []) :=
  empty_reply_gets_fallback { chatSession := some sampleStatement } "hi" rfl

/-- C7: the top-categories computation is ordered descending by summed
amount, every listed pair carries exactly the sum of the EXPENSE
transactions of its category, and on the spec fixture it yields Food=150
then Transport=30. -/
theorem category_aggregation (ts : List Transaction) :
    (categoryData ts).Pairwise (fun a b => b.2 ≤ a.2) ∧
    (∀ p, p ∈ categoryData ts → p.2 = expenseSum ts p.1) ∧
    categoryData sampleExpenses = [("Food", (150 : Rat)), ("Transport", (30 : Rat))] := by
  refine ⟨?_, ?_, by norm_num [categoryData, sampleExpenses, addToCategory, sortDesc, insertDesc]⟩
  · exact List.Pairwise.sublist (List.take_sublist _ _) (sorted_sortDesc _)
  · intro p hp
    obtain ⟨c, v⟩ := p
    have hp1 : (c, v) ∈ sortDesc
        (((ts.filter (fun t => t.type = TxType.EXPENSE)).foldl
          (fun acc t => addToCategory acc t.category t.amount) [])) :=
      List.mem_of_mem_take hp
    have hp2 := (mem_sortDesc _ _).mp hp1
    have hnd := foldl_keysNodup (ts.filter (fun t => t.type = TxType.EXPENSE)) []
      (by simp)
    have hv := mem_lookupVal _ c v hnd hp2
    rw [foldl_lookupVal] at hv
    simp only [lookupVal, zero_add] at hv
    rw [catSum_filter_expense] at hv
    exact hv.symm

/-- Witness for C7: Food is listed with exactly the summed Food expenses. -/
theorem category_aggregation_witness :
    (150 : Rat) = expenseSum sampleExpenses "Food" :=
  (category_aggregation sampleExpenses).2.1 ("Food", (150 : Rat))
    (by rw [(category_aggregation sampleExpenses).2.2]; simp)

/-- C8: the search filter keeps exactly the transactions whose description
or category contains the term as a case-insensitive substring; on the spec
fixture the term "coffee" in any case returns exactly the Starbucks
transaction. -/
theorem search_filter_characterization (ts : List Transaction) (term : String)
    (t : Transaction) :
    (t ∈ filteredTransactions ts term ↔ t ∈ ts ∧ matchesSearch term t = true) ∧
    filteredTransactions sampleSearchTxs "coffee" = [starbucksTx] ∧
    filteredTransactions sampleSearchTxs "COFFEE" = [starbucksTx] ∧
    filteredTransactions sampleSearchTxs "Coffee" = [starbucksTx] := by
  refine ⟨List.mem_filter, by decide, by decide, by decide⟩

/-- Witness for C8 at the spec fixture. -/
theorem search_filter_characterization_witness :
    starbucksTx ∈ filteredTransactions sampleSearchTxs "coffee" ↔
      starbucksTx ∈ sampleSearchTxs ∧ matchesSearch "coffee" starbucksTx = true :=
  (search_filter_characterization sampleSearchTxs "coffee" starbucksTx).1

/-- C10: the chat turn handler is a no-op (no request, no appended
message) while a send is in flight or when the candidate text is blank;
after a successful start the typing flag blocks any further start until
the finish step clears it, so turns are strictly serialized. -/
theorem sends_are_serialized (ui : ChatUIState) (ov : Option String) (idNow : Nat) :
    ((ui.isTyping = true ∨ (jsTrim (resolveSendText ui ov)).isEmpty = true) →
      handleSendStart ui ov idNow = none) ∧
    (∀ st text, handleSendStart ui ov idNow = some (st, text) →
      st.isTyping = true ∧
      (∀ ov2 id2, handleSendStart st ov2 id2 = none) ∧
      (∀ reply id3, (handleSendFinish st reply id3).isTyping = false)) := by
  constructor
  · intro h
    rcases h with h | h
    · simp [handleSendStart, h]
    · simp [handleSendStart, h]
  · intro st text hst
    simp only [handleSendStart] at hst
    by_cases hguard : ((jsTrim (resolveSendText ui ov)).isEmpty || ui.isTyping) = true
    · rw [if_pos hguard] at hst
      exact absurd hst (by simp)
    · rw [if_neg hguard] at hst
      rw [Option.some.injEq, Prod.mk.injEq] at hst
      obtain ⟨hst1, hst2⟩ := hst
      subst hst1
      subst hst2
      refine ⟨rfl, ?_, ?_⟩
      · intro ov2 id2
        simp [handleSendStart]
      · intro reply id3
        cases reply <;> simp [handleSendFinish]

/-- Witness for C10: a busy state ignores a new send; a started state has
the typing flag set, blocks a concurrent start, and the finish step clears
the flag. -/
theorem sends_are_serialized_witness :
    handleSendStart busyChatUI none 5 = none ∧
    startedChatUI.isTyping = true ∧
    handleSendStart startedChatUI (some "again") 9 = none ∧
    (handleSendFinish startedChatUI (.ok "reply") 9).isTyping = false :=
  ⟨(sends_are_serialized busyChatUI none 5).1 (Or.inl rfl),
   ((sends_are_serialized readyChatUI none 7).2 startedChatUI "hi" (by decide)).1,
   ((sends_are_serialized readyChatUI none 7).2 startedChatUI "hi" (by decide)).2.1
     (some "again") 9,
   ((sends_are_serialized readyChatUI none 7).2 startedChatUI "hi" (by decide)).2.2
     (.ok "reply") 9⟩

end FinAI
